import Mathlib

/-!
Verification of the GitHub credential-vault and batch-visibility orchestrator
(`app/database.py`, `app/encryption.py`, `app/github_api.py`, `app/utils.py`,
batch portion of `app/handlers.py`) against its natural-language specification.

The Python code is shallowly embedded: the tenant-scoped `github_apis` table
segment becomes a list of records, each `Database` method becomes a function
from state to state and result, and the psycopg2 transaction discipline is
modelled explicitly — a method's writes become visible (to any observer, who
always reads the committed state through a separate pooled connection) only at
`conn.commit()`; a code path that returns without committing leaves the
committed state unchanged (the connection pool rolls back a non-idle
connection on `putconn`).
-/

namespace GithubApiBot

/-! ## Cipher

Modelled from the spec: the Fernet cipher from the third-party `cryptography`
library is not part of this repository.  Per the spec's Cipher contract
(section 4.1), it is keyed symmetric authenticated encryption: decrypt with
the encrypting key inverts encrypt, and decrypt under any other key (wrong or
rotated key, tampered data) fails rather than returning plaintext.  We model
the ciphertext as an abstract token recording the encrypting key and payload,
and the wrappers' base64 transport encoding (a bijection on ciphertexts) as
the identity on that abstract type. -/

structure FernetToken where
  key : Nat
  payload : String
deriving Repr, DecidableEq

/-- Modelled from the spec: Fernet encryption under a key. -/
def fernetEncrypt (key : Nat) (plaintext : String) : FernetToken :=
  ⟨key, plaintext⟩

/-- Modelled from the spec: Fernet decryption; fails (raises `InvalidToken`)
unless the token was produced under the same key. -/
def fernetDecrypt (key : Nat) (c : FernetToken) : Option String :=
  if c.key = key then some c.payload else none

/-- The error raised when a ciphertext cannot be decrypted with the current
key (spec: `DecryptionError`; in the code, `cryptography`'s `InvalidToken`
propagating out of `cipher.decrypt`). -/
inductive DecryptionError where
  | invalidToken
deriving Repr, DecidableEq

/-- Base64 transport encoding of a ciphertext (`base64.b64encode` in
`encrypt_token`): a bijection on ciphertexts, modelled as the identity on the
abstract ciphertext type. -/
def b64encode (c : FernetToken) : FernetToken := c

/-- Base64 transport decoding (`base64.b64decode` in `decrypt_token`). -/
def b64decode (c : FernetToken) : FernetToken := c

/-- Embedding of `encrypt_token` (`app/encryption.py`, identical to
`Database._encrypt_token` in `app/database.py`):
`base64.b64encode(cipher.encrypt(token))`. -/
def encrypt_token (key : Nat) (token : String) : FernetToken :=
  b64encode (fernetEncrypt key token)

/-- Embedding of `decrypt_token` (`app/encryption.py`, identical to
`Database._decrypt_token` in `app/database.py`):
`cipher.decrypt(base64.b64decode(encrypted_token))`; a decryption failure is
re-raised (`Database._decrypt_token` logs and re-raises; `decrypt_token` does
not catch). -/
def decrypt_token (key : Nat) (encrypted_token : FernetToken) :
    Except DecryptionError String :=
  match fernetDecrypt key (b64decode encrypted_token) with
  | some s => .ok s
  | none => .error .invalidToken

/-! ## Credential vault (`github_apis` table, tenant-scoped) -/

/-- One row of the `github_apis` table for a fixed tenant (`user_id` is the
implicit scope of every query below).  `github_token` stores the encrypted
secret. -/
structure CredentialRecord where
  api_name : String
  github_token : FernetToken
  github_username : String
  is_active : Bool
  created_at : Nat
deriving Repr, DecidableEq

/-- The committed `github_apis` rows of one tenant, in insertion order. -/
abbrev VaultState := List CredentialRecord

/-- Embedding of `Database.add_github_api` (`app/database.py:189`): encrypt
the token; if a row with `api_name` exists, UPDATE `github_token`,
`github_username`, `created_at` (note: `is_active` is not in the SET list);
otherwise INSERT a new row with `is_active = false`.  Both paths commit.
Returns the new committed state and the method's boolean result. -/
def add_github_api (key : Nat) (s : VaultState) (api_name : String)
    (github_token : String) (github_username : String) (now : Nat) :
    VaultState × Bool :=
  let encrypted := encrypt_token key github_token
  if s.any (fun r => r.api_name == api_name) then
    (s.map (fun r =>
      if r.api_name = api_name then
        { r with github_token := encrypted, github_username := github_username,
                 created_at := now }
      else r), true)
  else
    (s ++ [⟨api_name, encrypted, github_username, false, now⟩], true)

/-- Embedding of `Database.set_active_api` (`app/database.py:264`): in one
transaction, UPDATE all of the tenant's rows to `is_active = false`, then
UPDATE the row named `api_name` to `is_active = true`.  The transaction is
committed only when the second UPDATE matched at least one row
(`cursor.rowcount > 0`); otherwise the method returns false without
committing, and the pooled connection's rollback discards the deactivation,
so the committed state is unchanged. -/
def set_active_api (s : VaultState) (api_name : String) : VaultState × Bool :=
  let deactivated := s.map (fun r => { r with is_active := false })
  let activated := deactivated.map (fun r =>
    if r.api_name = api_name then { r with is_active := true } else r)
  let rowcount := (deactivated.filter (fun r => r.api_name == api_name)).length
  if 0 < rowcount then (activated, true) else (s, false)

/-- The active credential with its secret decrypted, as returned by
`Database.get_active_api` (the Python code replaces the dict's
`github_token` field by the decrypted value). -/
structure DecryptedApi where
  api_name : String
  github_token : String
  github_username : String
  created_at : Nat
deriving Repr, DecidableEq

/-- Embedding of `Database.get_active_api` (`app/database.py:243`): SELECT
the row with `is_active = true` (at most one under the vault invariant; the
query's `fetchone` is modelled as the first such row), decrypt its token and
return it.  The method's `except Exception` wraps the whole body: a
decryption failure is caught and `None` is returned, exactly as when no
active row exists. -/
def get_active_api (key : Nat) (s : VaultState) : Option DecryptedApi :=
  match s.find? (fun r => r.is_active) with
  | none => none
  | some r =>
    match decrypt_token key r.github_token with
    | .ok t => some ⟨r.api_name, t, r.github_username, r.created_at⟩
    | .error _ => none

/-- Embedding of `Database.remove_github_api` (`app/database.py:292`):
DELETE the rows named `api_name`, commit, return true. -/
def remove_github_api (s : VaultState) (api_name : String) :
    VaultState × Bool :=
  (s.filter (fun r => r.api_name != api_name), true)

/-- Number of rows currently flagged active. -/
def countActive (s : VaultState) : Nat :=
  (s.filter (fun r => r.is_active)).length

/-- The spec's vault invariant: at most one active credential per tenant. -/
def atMostOneActive (s : VaultState) : Prop := countActive s ≤ 1

/-- Well-formedness maintained by the vault: credential names are unique
within a tenant (`add_github_api` updates in place instead of inserting a
duplicate name). -/
def namesNodup (s : VaultState) : Prop := (s.map (fun r => r.api_name)).Nodup

/-- One state-mutating vault operation (the observation points of the spec's
invariant are the committed states between these). -/
inductive VaultOp where
  | addOrUpdate (api_name github_token github_username : String) (now : Nat)
  | setActive (api_name : String)
  | remove (api_name : String)

/-- The committed state after one vault operation. -/
def applyOp (key : Nat) (op : VaultOp) (s : VaultState) : VaultState :=
  match op with
  | .addOrUpdate n t u now => (add_github_api key s n t u now).1
  | .setActive n => (set_active_api s n).1
  | .remove n => (remove_github_api s n).1

/-! ## Remote visibility client (`app/github_api.py`) -/

/-- The fields of the repository dict built by `GitHubAPI.get_repository`
that the orchestrator consumes (`repo_info['private']` drives auto-toggle). -/
structure RepoInfo where
  name : String
  is_private : Bool
deriving Repr, DecidableEq

/-- The remote service's answer to a repository read, as seen inside
`GitHubAPI.get_repository`: a 200 response with the repository data, a 404,
any other non-success status with its error payload, or a transport
exception. -/
inductive HttpResponse where
  | ok (repo : RepoInfo)
  | notFound
  | httpError (status : Nat) (message : String)
  | exn (message : String)
deriving Repr, DecidableEq

/-- Embedding of `GitHubAPI.get_repository` (`app/github_api.py:93`):
status 200 returns the repository dict; status 404 returns `None`; any other
status logs the error payload and returns `None`; a raised exception is
caught and `None` is returned. -/
def get_repository (resp : HttpResponse) : Option RepoInfo :=
  match resp with
  | .ok repo => some repo
  | .notFound => none
  | .httpError _ _ => none
  | .exn _ => none

/-! ## Repository-list parsing (`app/utils.py`) -/

/-- Python `str.split(sep)` for a one-character separator: splits at every
occurrence, keeping empty fragments. -/
def splitOnChar (sep : Char) : List Char → List (List Char)
  | [] => [[]]
  | c :: rest =>
    match splitOnChar sep rest with
    | [] => [[]]
    | g :: gs => if c = sep then [] :: g :: gs else (c :: g) :: gs

/-- Python `str.split(sep, 1)` when `sep` occurs: the fragment before the
first occurrence and everything after it. -/
def splitFirst (sep : Char) : List Char → List Char × List Char
  | [] => ([], [])
  | c :: rest =>
    if c = sep then ([], rest)
    else
      let p := splitFirst sep rest
      (c :: p.1, p.2)

/-- Python `str.strip()`: remove leading and trailing whitespace. -/
def pyStrip (cs : List Char) : List Char :=
  ((cs.dropWhile Char.isWhitespace).reverse.dropWhile Char.isWhitespace).reverse

/-- Embedding of `parse_repository_list` (`app/utils.py:78`): split the
comma-separated string, strip each entry and drop empty ones, then split
each entry at the first `/` into `(owner, repo)`, defaulting the owner to
`default_owner` when no `/` is present.  No deduplication happens here. -/
def parse_repository_list (repos_str : String) (default_owner : String) :
    List (String × String) :=
  if repos_str = "" then []
  else
    let repos := ((splitOnChar ',' repos_str.toList).map pyStrip).filter
      (fun g => !g.isEmpty)
    repos.map (fun repo =>
      if repo.contains '/' then
        let p := splitFirst '/' repo
        (String.mk (pyStrip p.1), String.mk (pyStrip p.2))
      else (default_owner, String.mk repo))

/-! ## Batch orchestrator (`BotHandlers._execute_batch_toggle`,
`app/handlers.py:832`)

The remote calls awaited inside the per-item `try` block are modelled by an
environment giving each call's outcome; `Except.error` models the awaited
call raising, which exercises the handler's per-item `except` path.  The
per-item work is instrumented with the list of remote calls it issues, so
call counts are part of the model. -/

/-- One remote call issued by the orchestrator. -/
inductive RemoteCall where
  | getRepo (owner repo : String)
  | setVisibility (owner repo : String) (makePrivate : Bool)
deriving Repr, DecidableEq

/-- Outcomes of the remote calls, per `(owner, repo)` pair: what
`github_api.get_repository` returns (or raises), and what
`github_api.toggle_repository_visibility` returns (or raises) for a given
`make_private` argument. -/
structure RemoteEnv where
  getRepo : String → String → Except String (Option RepoInfo)
  setVis : String → String → Bool → Except String (Bool × String)

/-- One entry of the orchestrator's `results` dict: the Python triple
`(success, message, visibility)`. -/
structure ItemOutcome where
  success : Bool
  message : String
  visibility : String
deriving Repr, DecidableEq

/-- The auto-toggle branch body for one pair (`app/handlers.py:863`): read
the repository; a `None` reply records `(False, "Repository not found",
"unknown")` without a visibility call; otherwise toggle with
`make_private = not repo_info['private']` and record the tag `"private"` or
`"public"` accordingly; a raised exception records `(False, str(e),
"unknown")`.  Also returns the remote calls issued. -/
def toggle_item_auto (env : RemoteEnv) (owner repo : String) :
    ItemOutcome × List RemoteCall :=
  match env.getRepo owner repo with
  | .error e => (⟨false, e, "unknown"⟩, [.getRepo owner repo])
  | .ok none =>
    (⟨false, "Repository not found", "unknown"⟩, [.getRepo owner repo])
  | .ok (some info) =>
    let makePrivate := !info.is_private
    match env.setVis owner repo makePrivate with
    | .error e =>
      (⟨false, e, "unknown"⟩,
       [.getRepo owner repo, .setVisibility owner repo makePrivate])
    | .ok res =>
      (⟨res.1, res.2, if makePrivate then "private" else "public"⟩,
       [.getRepo owner repo, .setVisibility owner repo makePrivate])

/-- The fixed-visibility branch body for one pair (`app/handlers.py:883`):
toggle directly with the fixed target and record `visibility_action` as the
tag; a raised exception records `(False, str(e), visibility_action)`. -/
def toggle_item_fixed (env : RemoteEnv) (owner repo : String)
    (makePrivate : Bool) (action : String) : ItemOutcome × List RemoteCall :=
  match env.setVis owner repo makePrivate with
  | .error e => (⟨false, e, action⟩, [.setVisibility owner repo makePrivate])
  | .ok res => (⟨res.1, res.2, action⟩, [.setVisibility owner repo makePrivate])

/-- The per-pair work selected by `visibility_action` (`'toggle'` takes the
auto-toggle branch, `'private'`/`'public'` the fixed branch with
`make_private = (visibility_action == 'private')`). -/
def run_item (env : RemoteEnv) (action : String) (owner repo : String) :
    ItemOutcome × List RemoteCall :=
  if action = "toggle" then toggle_item_auto env owner repo
  else toggle_item_fixed env owner repo (action == "private") action

/-- Python dict assignment `results[k] = v`: replace in place when the key
exists, else append. -/
def dictInsert (m : List (String × ItemOutcome)) (k : String)
    (v : ItemOutcome) : List (String × ItemOutcome) :=
  if m.any (fun p => p.1 == k) then
    m.map (fun p => if p.1 = k then (k, v) else p)
  else m ++ [(k, v)]

/-- Dict lookup, returning the stored outcome for a key. -/
def dictLookup (m : List (String × ItemOutcome)) (k : String) :
    Option ItemOutcome :=
  (m.find? (fun p => p.1 == k)).map (fun p => p.2)

/-- The dict key used by the orchestrator for a pair:
`f"{owner}/{repo_name}"`. -/
def pairKey (p : String × String) : String := p.1 ++ "/" ++ p.2

/-- The orchestrator's main loop over the parsed (non-deduplicated) pair
list: each occurrence runs its per-pair work, its outcome is stored under
the pair's key (later occurrences overwrite earlier ones in place), and all
remote calls are accumulated in order. -/
def run_batch (env : RemoteEnv) (action : String)
    (pairs : List (String × String)) :
    List (String × ItemOutcome) × List RemoteCall :=
  pairs.foldl (fun acc p =>
    let itemRes := run_item env action p.1 p.2
    (dictInsert acc.1 (pairKey p) itemRes.1, acc.2 ++ itemRes.2))
    ([], [])

/-- Outcome of the command-level pipeline around the orchestrator. -/
inductive BatchOutcome where
  | rejectedEmptyList
  | rejectedTooMany (provided : Nat)
  | executed (results : List (String × ItemOutcome))
deriving Repr, DecidableEq

/-- Embedding of the validation in `BotHandlers.batch_toggle_command`
(`app/handlers.py:786`) composed with the execution step it gates: parse the
repository list; reject an empty list; reject more than 10 entries (the
"Too Many Repositories" reply) before any remote call; otherwise run the
batch.  The returned call list is the complete remote-call trace of the
pipeline. -/
def batch_toggle_pipeline (env : RemoteEnv) (action : String)
    (repos_str : String) (default_owner : String) :
    BatchOutcome × List RemoteCall :=
  let repo_list := parse_repository_list repos_str default_owner
  if repo_list.isEmpty then (.rejectedEmptyList, [])
  else if 10 < repo_list.length then (.rejectedTooMany repo_list.length, [])
  else
    let out := run_batch env action repo_list
    (.executed out.1, out.2)

/-- First occurrences of a key list, in order: the key set of the results
dict. -/
def firstOccurrences (ks : List String) : List String :=
  ks.foldl (fun acc k => if acc.any (fun x => x == k) then acc
    else acc ++ [k]) []

/-! ## Concurrency gate (`GitHubAPI.batch_toggle_visibility`,
`app/github_api.py:157`)

The cooperative scheduling of the `toggle_single` tasks gathered under
`asyncio.Semaphore(3)` is modelled as a transition system: each task is
admitted only when a semaphore slot is free (`acquire`), then performs its
remote call (`finish`), then honours the pacing sleep and releases its slot
on leaving the `async with` block (`release`).  Interleaving is arbitrary:
any enabled transition of any task may fire. -/

/-- The phase of one `toggle_single` task: not yet admitted by the
semaphore; admitted with its remote call in flight; remote call done,
holding the slot through the `asyncio.sleep(0.2)` pacing delay; or finished
with the slot released. -/
inductive TaskPhase where
  | notStarted
  | inFlight
  | pacing
  | taskDone
deriving Repr, DecidableEq

/-- Scheduler state: free semaphore slots and each task's phase. -/
structure SemState where
  avail : Nat
  tasks : List TaskPhase
deriving Repr, DecidableEq

/-- Initial state of `batch_toggle_visibility` over `n` repositories: the
semaphore is created with 3 slots and no task has started. -/
def semInit (n : Nat) : SemState :=
  ⟨3, List.replicate n .notStarted⟩

/-- One scheduler step.  A task may acquire the semaphore only when a slot
is free; it releases the slot only from the pacing phase, i.e. only after
its remote call completed (success or failure) and the pacing delay ran
inside the `async with` block. -/
inductive SemStep : SemState → SemState → Prop where
  | acquire (s : SemState) (i : Nat) (h : s.tasks.get? i = some .notStarted)
      (ha : 0 < s.avail) :
      SemStep s ⟨s.avail - 1, s.tasks.set i .inFlight⟩
  | finish (s : SemState) (i : Nat) (h : s.tasks.get? i = some .inFlight) :
      SemStep s ⟨s.avail, s.tasks.set i .pacing⟩
  | release (s : SemState) (i : Nat) (h : s.tasks.get? i = some .pacing) :
      SemStep s ⟨s.avail + 1, s.tasks.set i .taskDone⟩

/-- States reachable by the scheduler from the start of a batch of `n`
tasks. -/
def SemReachable (n : Nat) (s : SemState) : Prop :=
  Relation.ReflTransGen SemStep (semInit n) s

/-- Number of tasks whose remote call is currently in flight. -/
def inFlightCount (s : SemState) : Nat :=
  s.tasks.countP (fun p => p == .inFlight)

/-- Number of tasks currently holding a semaphore slot (in flight or in the
pacing delay). -/
def holdersCount (s : SemState) : Nat :=
  s.tasks.countP (fun p => p == .inFlight || p == .pacing)

/-! ## Concrete test environments -/

/-- A remote service where every repository exists, is public, and every
visibility change succeeds. -/
def envPub : RemoteEnv :=
  ⟨fun _ _ => .ok (some ⟨"x", false⟩), fun _ _ _ => .ok (true, "ok")⟩

/-- A remote service where every repository exists and is public, but the
visibility call on any repository named `b` raises. -/
def envMid : RemoteEnv :=
  ⟨fun _ _ => .ok (some ⟨"x", false⟩),
   fun _ repo _ => if repo = "b" then .error "boom" else .ok (true, "ok")⟩

/-! ## Helper lemmas -/

theorem countActive_eq_countP (s : VaultState) :
    countActive s = s.countP (fun r => r.is_active) :=
  (List.countP_eq_length_filter _ _).symm

theorem map_proj_comm {β : Type} (s : VaultState)
    (f : CredentialRecord → CredentialRecord) (g : CredentialRecord → β)
    (hf : ∀ r, g (f r) = g r) : (s.map f).map g = s.map g := by
  rw [List.map_map]
  exact List.map_congr_left (fun r _ => hf r)

theorem countActive_map (s : VaultState)
    (f : CredentialRecord → CredentialRecord)
    (hf : ∀ r, (f r).is_active = r.is_active) :
    countActive (s.map f) = countActive s := by
  rw [countActive_eq_countP, countActive_eq_countP, List.countP_map]
  exact List.countP_congr (fun r _ => by simp [hf r])

/-! ## Theorems -/

/-- C8: decrypting with the encrypting key inverts `encrypt_token` for every
secret, and decrypting a ciphertext produced under a different key fails
with a `DecryptionError` instead of returning any plaintext. -/
theorem encrypt_decrypt_roundtrip (key key2 : Nat) (secret : String)
    (h : key2 ≠ key) :
    decrypt_token key (encrypt_token key secret) = .ok secret ∧
    decrypt_token key2 (encrypt_token key secret) = .error .invalidToken := by
  have h2 : key ≠ key2 := fun hh => h hh.symm
  constructor
  · simp [decrypt_token, encrypt_token, b64encode, b64decode, fernetEncrypt,
      fernetDecrypt]
  · simp [decrypt_token, encrypt_token, b64encode, b64decode, fernetEncrypt,
      fernetDecrypt, h2]

/-- C8 witness: the round trip and the wrong-key failure at a concrete
secret and concrete keys. -/
theorem encrypt_decrypt_roundtrip_witness :
    decrypt_token 0 (encrypt_token 0 "ghp_sometoken") = .ok "ghp_sometoken" ∧
    decrypt_token 1 (encrypt_token 0 "ghp_sometoken") =
      .error .invalidToken :=
  encrypt_decrypt_roundtrip 0 1 "ghp_sometoken" (by decide)

/-- C5 counterexample: a non-404 failure (here a 500) makes
`get_repository` return `None`, the very value that encodes "not found", so
the caller cannot distinguish "the repository does not exist" from "the call
failed".  The claim that any other non-success response is surfaced as an
error result distinguishable from absence is false on the code. -/
theorem get_repository_masks_errors_counterexample :
    get_repository (.httpError 500 "Internal Server Error") = none ∧
    get_repository (.exn "timeout") = none ∧
    get_repository .notFound = none := by
  decide

/-- C5 amended: `get_repository` returns the repository exactly on a 200
response and returns absent (`None`) on a 404, on every other non-success
status, and on a raised exception alike; absence does not distinguish "not
found" from failure. -/
theorem get_repository_spec :
    (∀ repo, get_repository (.ok repo) = some repo) ∧
    get_repository .notFound = none ∧
    (∀ status msg, get_repository (.httpError status msg) = none) ∧
    (∀ msg, get_repository (.exn msg) = none) :=
  ⟨fun _ => rfl, rfl, fun _ _ => rfl, fun _ => rfl⟩

/-- C4 counterexample: a tenant whose single active credential is encrypted
under a different key (key 1, current key 0).  Decryption of the stored
ciphertext fails with `DecryptionError`, yet `get_active_api` returns
`None` — exactly the value returned for a tenant with no active credential —
because its `except Exception` swallows the error.  The claim that the
failure is surfaced and never masked as "no active credential" is false on
the code. -/
theorem get_active_api_masks_decrypt_failure_counterexample :
    decrypt_token 0 (fernetEncrypt 1 "tok") = .error .invalidToken ∧
    get_active_api 0 [⟨"work", fernetEncrypt 1 "tok", "user", true, 0⟩] =
      none ∧
    get_active_api 0 ([] : VaultState) = none :=
  ⟨rfl, rfl, rfl⟩

/-- C4 amended: `get_active_api` reports `None` exactly when the tenant has
no active row or when the active row's ciphertext fails to decrypt with the
current key; the decryption failure is caught and masked as absence rather
than surfaced as a distinct error. -/
theorem get_active_api_none_iff (key : Nat) (s : VaultState) :
    get_active_api key s = none ↔
      s.find? (fun r => r.is_active) = none ∨
      ∃ r, s.find? (fun r => r.is_active) = some r ∧
        decrypt_token key r.github_token = .error .invalidToken := by
  unfold get_active_api
  cases hf : s.find? (fun r => r.is_active) with
  | none => simp
  | some r =>
    cases hd : decrypt_token key r.github_token with
    | ok t => simp [hd]
    | error e => cases e; simp [hd]

theorem set_active_api_map (s : VaultState) (n : String) :
    ((s.map (fun r => { r with is_active := false })).map (fun r =>
      if r.api_name = n then { r with is_active := true } else r))
    = s.map (fun r => { r with is_active := r.api_name == n }) := by
  rw [List.map_map]
  apply List.map_congr_left
  intro r _
  by_cases h : r.api_name = n <;> simp [h]

theorem countP_name_le_one (s : VaultState) (n : String)
    (h : namesNodup s) : s.countP (fun r => r.api_name == n) ≤ 1 := by
  have hc : s.countP (fun r => r.api_name == n)
      = (s.map (fun r => r.api_name)).count n := by
    rw [List.count_eq_countP, List.countP_map]
    rfl
  rw [hc]
  exact List.nodup_iff_count_le_one.mp h n

theorem not_mem_names_of_any_false (s : VaultState) (n : String)
    (h : s.any (fun r => r.api_name == n) = false) :
    n ∉ s.map (fun r => r.api_name) := by
  rw [List.any_eq_false] at h
  simp only [List.mem_map]
  rintro ⟨r, hr, hname⟩
  exact h r hr (by simp [hname])

theorem add_github_api_found (key : Nat) (s : VaultState) (n t u : String)
    (now : Nat) (hex : s.any (fun r => r.api_name == n) = true) :
    (add_github_api key s n t u now).1 = s.map (fun r =>
      if r.api_name = n then
        { r with github_token := encrypt_token key t, github_username := u,
                 created_at := now }
      else r) := by
  simp [add_github_api, hex]

theorem add_github_api_notfound (key : Nat) (s : VaultState) (n t u : String)
    (now : Nat) (hex : s.any (fun r => r.api_name == n) = false) :
    (add_github_api key s n t u now).1 =
      s ++ [⟨n, encrypt_token key t, u, false, now⟩] := by
  simp [add_github_api, hex]

theorem set_active_api_spec (s : VaultState) (n : String) :
    ((set_active_api s n).2 = true ∧
      (set_active_api s n).1 =
        s.map (fun r => { r with is_active := r.api_name == n })) ∨
    ((set_active_api s n).2 = false ∧ (set_active_api s n).1 = s) := by
  by_cases hc : 0 <
      ((s.map (fun r => { r with is_active := false })).filter
        (fun r => r.api_name == n)).length
  · left
    refine ⟨by simp [set_active_api, hc], ?_⟩
    have h1 : (set_active_api s n).1 =
        (s.map (fun r => { r with is_active := false })).map (fun r =>
          if r.api_name = n then { r with is_active := true } else r) := by
      simp [set_active_api, hc]
    rw [h1, set_active_api_map]
  · right
    exact ⟨by simp [set_active_api, hc], by simp [set_active_api, hc]⟩

theorem set_active_api_missing (s : VaultState) (n : String)
    (h : (set_active_api s n).2 = false) : (set_active_api s n).1 = s := by
  rcases set_active_api_spec s n with ⟨ht, _⟩ | ⟨_, hs⟩
  · rw [ht] at h
    exact absurd h (by simp)
  · exact hs

theorem namesNodup_applyOp (key : Nat) (op : VaultOp) (s : VaultState)
    (hn : namesNodup s) : namesNodup (applyOp key op s) := by
  cases op with
  | addOrUpdate n t u now =>
    show namesNodup (add_github_api key s n t u now).1
    cases hex : s.any (fun r => r.api_name == n) with
    | true =>
      rw [add_github_api_found key s n t u now hex]
      unfold namesNodup at *
      rwa [map_proj_comm s (fun r =>
          if r.api_name = n then
            { r with github_token := encrypt_token key t,
                     github_username := u, created_at := now }
          else r) (fun r => r.api_name)
        (fun r => by by_cases h : r.api_name = n <;> simp [h])]
    | false =>
      rw [add_github_api_notfound key s n t u now hex]
      unfold namesNodup at *
      rw [List.map_append, List.nodup_append]
      refine ⟨hn, by simp, ?_⟩
      intro a ha hb
      simp only [List.map_cons, List.map_nil, List.mem_cons,
        List.not_mem_nil, or_false] at hb
      exact not_mem_names_of_any_false s n hex (hb ▸ ha)
  | setActive n =>
    show namesNodup (set_active_api s n).1
    rcases set_active_api_spec s n with ⟨_, hs⟩ | ⟨_, hs⟩
    · rw [hs]
      unfold namesNodup at *
      rwa [map_proj_comm s (fun r => { r with is_active := r.api_name == n })
        (fun r => r.api_name) (fun r => rfl)]
    · rwa [hs]
  | remove n =>
    show namesNodup (remove_github_api s n).1
    unfold remove_github_api namesNodup at *
    exact ((List.filter_sublist s).map _).nodup hn

theorem atMostOneActive_applyOp (key : Nat) (op : VaultOp) (s : VaultState)
    (hn : namesNodup s) (ha : atMostOneActive s) :
    atMostOneActive (applyOp key op s) := by
  cases op with
  | addOrUpdate n t u now =>
    show atMostOneActive (add_github_api key s n t u now).1
    cases hex : s.any (fun r => r.api_name == n) with
    | true =>
      rw [add_github_api_found key s n t u now hex]
      unfold atMostOneActive at *
      rwa [countActive_map s _
        (fun r => by by_cases h : r.api_name = n <;> simp [h])]
    | false =>
      rw [add_github_api_notfound key s n t u now hex]
      unfold atMostOneActive countActive at *
      rwa [List.filter_append, List.length_append, List.filter_cons,
        List.filter_nil]
  | setActive n =>
    show atMostOneActive (set_active_api s n).1
    rcases set_active_api_spec s n with ⟨_, hs⟩ | ⟨_, hs⟩
    · rw [hs]
      unfold atMostOneActive
      rw [countActive_eq_countP, List.countP_map]
      have hcomp : ((fun r => r.is_active) ∘
          (fun r => { r with is_active := r.api_name == n }))
          = (fun r : CredentialRecord => r.api_name == n) := rfl
      rw [hcomp]
      exact countP_name_le_one s n hn
    · rwa [hs]
  | remove n =>
    show atMostOneActive (remove_github_api s n).1
    unfold remove_github_api
    unfold atMostOneActive at *
    rw [countActive_eq_countP] at *
    exact le_trans ((List.filter_sublist s).countP_le _) ha

/-- C1 counterexample: a tenant with one active credential `work`; a
`set_active_api` naming the nonexistent credential `nope` returns false,
and afterwards the tenant still has one active credential — not zero as the
claim states — because the transaction containing the deactivate-all UPDATE
is never committed and is rolled back when the connection returns to the
pool. -/
theorem set_active_missing_keeps_active_counterexample :
    (set_active_api [⟨"work", encrypt_token 0 "tok", "user", true, 0⟩]
      "nope").2 = false ∧
    countActive (set_active_api
      [⟨"work", encrypt_token 0 "tok", "user", true, 0⟩] "nope").1 ≠ 0 := by
  decide

/-- C1 amended: every vault operation preserves both name uniqueness and
the at-most-one-active invariant, so at most one credential per tenant is
active at every observation point; and a `set_active_api` that names a
credential that does not exist for the tenant returns false and leaves the
committed state unchanged — the previously active record, if any, is
retained as active (the tenant is not left with zero active credentials). -/
theorem vault_at_most_one_active (key : Nat) (op : VaultOp) (s : VaultState)
    (hn : namesNodup s) (ha : atMostOneActive s) :
    (namesNodup (applyOp key op s) ∧ atMostOneActive (applyOp key op s)) ∧
    (∀ n, (set_active_api s n).2 = false → (set_active_api s n).1 = s) :=
  ⟨⟨namesNodup_applyOp key op s hn, atMostOneActive_applyOp key op s hn ha⟩,
   fun n h => set_active_api_missing s n h⟩

/-- C1 witness: the amended theorem applied to a tenant with one active
credential `a` and a `setActive` naming the nonexistent `b`: the invariant
holds afterwards and the state is untouched. -/
theorem vault_at_most_one_active_witness :
    (namesNodup (applyOp 0 (.setActive "b")
        [⟨"a", encrypt_token 0 "t", "u", true, 0⟩]) ∧
      atMostOneActive (applyOp 0 (.setActive "b")
        [⟨"a", encrypt_token 0 "t", "u", true, 0⟩])) ∧
    (set_active_api [⟨"a", encrypt_token 0 "t", "u", true, 0⟩] "b").1 =
      [⟨"a", encrypt_token 0 "t", "u", true, 0⟩] := by
  have h := vault_at_most_one_active 0 (.setActive "b")
    [⟨"a", encrypt_token 0 "t", "u", true, 0⟩]
    (by unfold namesNodup; decide) (by unfold atMostOneActive; decide)
  exact ⟨h.1, h.2 "b" (by decide)⟩

/-- C2 counterexample: add credential `a`, activate it, then re-add `a`.
The claim says the overwrite sets `is_active` to false; in fact the UPDATE
statement's SET list does not include `is_active`, so the overwritten record
is still active. -/
theorem add_overwrite_keeps_active_counterexample :
    ((add_github_api 0 (set_active_api (add_github_api 0 [] "a" "t1" "u1"
        0).1 "a").1 "a" "t2" "u2" 1).1).map (fun r => r.is_active)
      = [true] := by
  decide

/-- C2 amended: re-adding an existing name overwrites the record's secret,
principal and timestamp but leaves its `is_active` flag unchanged (no flag
in the table is touched), rather than resetting it to false; consequently
re-adding the same name twice in direct sequence, starting from a state
with no record of that name, leaves exactly one record with that name,
holding the second secret and principal, with `is_active` still false only
because the initial insert set it false. -/
theorem add_github_api_overwrite (key : Nat) (s s2 : VaultState)
    (n t u t1 u1 t2 u2 : String) (now now1 now2 : Nat)
    (hex : s2.any (fun r => r.api_name == n) = true)
    (hfree : s.any (fun r => r.api_name == n) = false) :
    ((add_github_api key s2 n t u now).1).map (fun r => r.is_active)
        = s2.map (fun r => r.is_active) ∧
    ((add_github_api key (add_github_api key s n t1 u1 now1).1 n t2 u2
        now2).1).filter (fun r => r.api_name == n)
      = [⟨n, encrypt_token key t2, u2, false, now2⟩] := by
  constructor
  · rw [add_github_api_found key s2 n t u now hex]
    exact map_proj_comm s2 _ (fun r => r.is_active)
      (fun r => by by_cases h : r.api_name = n <;> simp [h])
  · rw [add_github_api_notfound key s n t1 u1 now1 hfree]
    have hex1 : (s ++ [(⟨n, encrypt_token key t1, u1, false, now1⟩ :
        CredentialRecord)]).any (fun r => r.api_name == n) = true := by
      simp [List.any_append]
    rw [add_github_api_found key _ n t2 u2 now2 hex1]
    rw [List.map_append, List.filter_append, List.filter_map]
    have hfil : s.filter ((fun r => r.api_name == n) ∘ (fun r =>
        if r.api_name = n then
          { r with github_token := encrypt_token key t2,
                   github_username := u2, created_at := now2 }
        else r)) = [] := by
      rw [List.filter_eq_nil_iff]
      intro r hr
      rw [List.any_eq_false] at hfree
      have := hfree r hr
      by_cases h : r.api_name = n <;> simp [h] at this ⊢
    rw [hfil]
    simp

/-- C2 witness: the amended theorem at a concrete state: overwriting the
active credential `a` leaves its flag true, and adding `a` twice from an
empty vault leaves one record with the second secret, inactive. -/
theorem add_github_api_overwrite_witness :
    ((add_github_api 0 [⟨"a", encrypt_token 0 "t0", "u0", true, 0⟩]
        "a" "t" "u" 5).1).map (fun r => r.is_active) = [true] ∧
    ((add_github_api 0 (add_github_api 0 [] "a" "t1" "u1" 0).1
        "a" "t2" "u2" 1).1).filter (fun r => r.api_name == "a")
      = [⟨"a", encrypt_token 0 "t2", "u2", false, 1⟩] := by
  have h := add_github_api_overwrite 0 []
    [⟨"a", encrypt_token 0 "t0", "u0", true, 0⟩]
    "a" "t" "u" "t1" "u1" "t2" "u2" 5 0 1 (by decide) (by decide)
  exact ⟨h.1.trans (by decide), h.2⟩

theorem dictInsert_keys (m : List (String × ItemOutcome)) (k : String)
    (v : ItemOutcome) :
    (dictInsert m k v).map Prod.fst =
      if (m.map Prod.fst).any (fun x => x == k) then m.map Prod.fst
      else m.map Prod.fst ++ [k] := by
  have hc : (m.map Prod.fst).any (fun x => x == k)
      = m.any (fun p => p.1 == k) := by
    induction m with
    | nil => rfl
    | cons a t ih => simp [List.any_cons, ih]
  rw [hc]
  unfold dictInsert
  cases h : m.any (fun p => p.1 == k) with
  | false => simp [h]
  | true =>
    simp only [h, if_true]
    rw [List.map_map]
    apply List.map_congr_left
    intro p _
    by_cases hp : p.1 = k <;> simp [hp]

theorem dict_foldl_keys (env : RemoteEnv) (action : String)
    (pairs : List (String × String)) (m : List (String × ItemOutcome)) :
    (pairs.foldl (fun mm p => dictInsert mm (pairKey p)
        (run_item env action p.1 p.2).1) m).map Prod.fst
      = (pairs.map pairKey).foldl
          (fun acc k => if acc.any (fun x => x == k) then acc
            else acc ++ [k]) (m.map Prod.fst) := by
  induction pairs generalizing m with
  | nil => rfl
  | cons p rest ih =>
    rw [List.foldl_cons, List.map_cons, List.foldl_cons, ih,
      dictInsert_keys]

theorem run_batch_foldl (env : RemoteEnv) (action : String)
    (pairs : List (String × String)) (m : List (String × ItemOutcome))
    (tr : List RemoteCall) :
    pairs.foldl (fun acc p =>
      let itemRes := run_item env action p.1 p.2
      (dictInsert acc.1 (pairKey p) itemRes.1, acc.2 ++ itemRes.2)) (m, tr)
    = (pairs.foldl (fun mm p => dictInsert mm (pairKey p)
          (run_item env action p.1 p.2).1) m,
       tr ++ pairs.flatMap (fun p => (run_item env action p.1 p.2).2)) := by
  induction pairs generalizing m tr with
  | nil => simp
  | cons p rest ih =>
    rw [List.foldl_cons, List.foldl_cons, List.flatMap_cons]
    refine (ih (dictInsert m (pairKey p) (run_item env action p.1 p.2).1)
      (tr ++ (run_item env action p.1 p.2).2)).trans ?_
    simp [List.append_assoc]

/-- C3 counterexample: the input `a/x,a/x,b/y` parsed and run in
`make-private` mode against a remote service where every call succeeds.
The results dict has exactly two entries, but the call trace shows two
remote calls for the pair `(a, x)` — one per occurrence — refuting the
claim that the orchestrator issues exactly one remote call per distinct
pair. -/
theorem batch_dedup_single_call_counterexample :
    (run_batch envPub "private"
        (parse_repository_list "a/x,a/x,b/y" "me")).1.map Prod.fst
      = ["a/x", "b/y"] ∧
    (run_batch envPub "private"
        (parse_repository_list "a/x,a/x,b/y" "me")).2
      = [.setVisibility "a" "x" true, .setVisibility "a" "x" true,
         .setVisibility "b" "y" true] := by
  decide

/-- C3 amended: duplicate pairs collapse to a single result entry — the
results dict is keyed by `owner/repo` in first-occurrence order, later
occurrences overwriting earlier outcomes in place — but the orchestrator
performs the per-item work of every occurrence: the remote-call trace is
the concatenation, occurrence by occurrence, of each item's calls, so a
pair occurring twice is operated on twice, not once. -/
theorem run_batch_dedup_results_calls_per_occurrence (env : RemoteEnv)
    (action : String) (pairs : List (String × String)) :
    (run_batch env action pairs).1.map Prod.fst
        = firstOccurrences (pairs.map pairKey) ∧
    (run_batch env action pairs).2
        = pairs.flatMap (fun p => (run_item env action p.1 p.2).2) := by
  unfold run_batch
  rw [run_batch_foldl]
  exact ⟨dict_foldl_keys env action pairs [], rfl⟩

/-- C6: in auto-toggle mode the orchestrator's per-pair work (dispatched by
`run_item` for the `toggle` action) first calls `getRepository`; if the
repository is absent it records the terminal failure `Repository not found`
and its call trace contains no visibility call; otherwise it calls
`setVisibility` with `makePrivate` equal to the negation of the repository's
`private` flag, and a currently public repository whose visibility call
returns yields a result entry tagged `private`. -/
theorem auto_toggle_item_spec (env : RemoteEnv) (owner repo : String) :
    run_item env "toggle" owner repo = toggle_item_auto env owner repo ∧
    (env.getRepo owner repo = .ok none →
      toggle_item_auto env owner repo =
        (⟨false, "Repository not found", "unknown"⟩, [.getRepo owner repo])) ∧
    (∀ info, env.getRepo owner repo = .ok (some info) →
      (toggle_item_auto env owner repo).2 =
        [.getRepo owner repo,
         .setVisibility owner repo (!info.is_private)] ∧
      (info.is_private = false → ∀ b msg,
        env.setVis owner repo true = .ok (b, msg) →
          (toggle_item_auto env owner repo).1 = ⟨b, msg, "private"⟩)) := by
  refine ⟨rfl, ?_, ?_⟩
  · intro h
    simp [toggle_item_auto, h]
  · intro info h
    constructor
    · cases hv : env.setVis owner repo (!info.is_private) <;>
        simp [toggle_item_auto, h, hv]
    · intro hpub b msg hv
      simp [toggle_item_auto, h, hpub, hv]

/-- C6 witness: the per-pair auto-toggle work on a public repository in the
all-public environment issues the read then a `makePrivate = true`
visibility call and records `resulting_visibility = private`; on an
environment reporting absence it records the not-found failure with no
visibility call. -/
theorem auto_toggle_item_spec_witness :
    (toggle_item_auto envPub "a" "x").2 =
      [.getRepo "a" "x", .setVisibility "a" "x" true] ∧
    (toggle_item_auto envPub "a" "x").1 = ⟨true, "ok", "private"⟩ := by
  have h := (auto_toggle_item_spec envPub "a" "x").2.2 ⟨"x", false⟩ rfl
  exact ⟨h.1, h.2 rfl true "ok" rfl⟩

/-- C7: the orchestrator returns one result entry per distinct pair even
when an item's remote call raises: for three pairs with distinct keys the
results dict has exactly the three entries, each equal to the outcome of
that pair's own per-item work (so the first and third outcomes are whatever
their own calls produce, unaffected by the second); and in `make-private`
mode a second pair whose visibility call raises `e` is recorded as the
failed entry `(false, e, "private")` rather than propagating. -/
theorem batch_partial_failure (env : RemoteEnv) (action : String)
    (p1 p2 p3 : String × String) (e : String)
    (h12 : pairKey p1 ≠ pairKey p2) (h13 : pairKey p1 ≠ pairKey p3)
    (h23 : pairKey p2 ≠ pairKey p3) :
    (run_batch env action [p1, p2, p3]).1 =
      [(pairKey p1, (run_item env action p1.1 p1.2).1),
       (pairKey p2, (run_item env action p2.1 p2.2).1),
       (pairKey p3, (run_item env action p3.1 p3.2).1)] ∧
    (action = "private" → env.setVis p2.1 p2.2 true = .error e →
      (run_item env action p2.1 p2.2).1 = ⟨false, e, "private"⟩) := by
  have b12 : (pairKey p1 == pairKey p2) = false := beq_eq_false_iff_ne.mpr h12
  have b13 : (pairKey p1 == pairKey p3) = false := beq_eq_false_iff_ne.mpr h13
  have b23 : (pairKey p2 == pairKey p3) = false := beq_eq_false_iff_ne.mpr h23
  constructor
  · simp [run_batch, dictInsert, b12, b13, b23]
  · intro ha hv
    subst ha
    have hne : ("private" : String) ≠ "toggle" := by decide
    simp [run_item, hne, toggle_item_fixed, hv]

/-- C7 witness: three concrete repositories where the second's visibility
call raises; the batch returns all three results, the second recorded as
failed, the first and third as their own successful outcomes. -/
theorem batch_partial_failure_witness :
    (run_batch envMid "private" [("o", "a"), ("o", "b"), ("o", "c")]).1 =
      [("o/a", ⟨true, "ok", "private"⟩),
       ("o/b", ⟨false, "boom", "private"⟩),
       ("o/c", ⟨true, "ok", "private"⟩)] := by
  have h := batch_partial_failure envMid "private" ("o", "a") ("o", "b")
    ("o", "c") "boom" (by decide) (by decide) (by decide)
  rw [h.1]
  decide

theorem firstOccurrences_foldl_length_le (ks : List String)
    (acc : List String) :
    (ks.foldl (fun acc k => if acc.any (fun x => x == k) then acc
      else acc ++ [k]) acc).length ≤ acc.length + ks.length := by
  induction ks generalizing acc with
  | nil => simp
  | cons k rest ih =>
    rw [List.foldl_cons]
    by_cases h : acc.any (fun x => x == k) = true
    · simp only [h, if_true, List.length_cons]
      have := ih acc
      omega
    · rw [Bool.not_eq_true] at h
      simp only [h, Bool.false_eq_true, if_false]
      have := ih (acc ++ [k])
      simp only [List.length_append, List.length_cons, List.length_nil]
        at this ⊢
      omega

theorem firstOccurrences_length_le (ks : List String) :
    (firstOccurrences ks).length ≤ ks.length := by
  have := firstOccurrences_foldl_length_le ks []
  simpa [firstOccurrences] using this

/-- C9: a batch whose deduplicated repository list has more than 10 entries
(hence the submitted list does too) is rejected with the count-exceeded
reply and the pipeline issues no remote call at all; and no submission of
at most 10 list entries is ever rejected by the cap check. -/
theorem batch_cap_check (env : RemoteEnv)
    (action repos_str default_owner : String)
    (hover : 10 < (firstOccurrences ((parse_repository_list repos_str
        default_owner).map pairKey)).length) :
    batch_toggle_pipeline env action repos_str default_owner =
      (.rejectedTooMany
        (parse_repository_list repos_str default_owner).length, []) ∧
    (∀ (env2 : RemoteEnv) (act2 rs2 own2 : String),
      (parse_repository_list rs2 own2).length ≤ 10 →
      ∀ nn, (batch_toggle_pipeline env2 act2 rs2 own2).1 ≠
        .rejectedTooMany nn) := by
  constructor
  · have hlen : 10 <
        (parse_repository_list repos_str default_owner).length := by
      have h1 := firstOccurrences_length_le
        ((parse_repository_list repos_str default_owner).map pairKey)
      rw [List.length_map] at h1
      omega
    have hne : (parse_repository_list repos_str default_owner).isEmpty
        = false := by
      cases hp : parse_repository_list repos_str default_owner with
      | nil => rw [hp] at hlen; simp at hlen
      | cons a l => rfl
    simp [batch_toggle_pipeline, hne, hlen]
  · intro env2 act2 rs2 own2 hle nn
    unfold batch_toggle_pipeline
    by_cases he : (parse_repository_list rs2 own2).isEmpty = true
    · simp [he]
    · rw [Bool.not_eq_true] at he
      have hl : ¬ 10 < (parse_repository_list rs2 own2).length := by omega
      simp [he, hl]

/-- C9 witness: eleven distinct repository identifiers are rejected with
the count-exceeded outcome and an empty remote-call trace, while a
two-identifier submission is not rejected by the cap check. -/
theorem batch_cap_check_witness :
    batch_toggle_pipeline envPub "private"
        "r1,r2,r3,r4,r5,r6,r7,r8,r9,r10,r11" "me" =
      (.rejectedTooMany 11, []) ∧
    (batch_toggle_pipeline envPub "private" "r1,r2" "me").1 ≠
      .rejectedTooMany 2 := by
  have h := batch_cap_check envPub "private"
    "r1,r2,r3,r4,r5,r6,r7,r8,r9,r10,r11" "me" (by decide)
  exact ⟨h.1.trans (by decide),
    h.2 envPub "private" "r1,r2" "me" (by decide) 2⟩

theorem countP_set_of_get (p : TaskPhase → Bool) (l : List TaskPhase)
    (i : Nat) (v old : TaskPhase) (h : l.get? i = some old) :
    (l.set i v).countP p + (if p old then 1 else 0)
      = l.countP p + (if p v then 1 else 0) := by
  induction l generalizing i with
  | nil => simp at h
  | cons a t ih =>
    cases i with
    | zero =>
      simp only [List.get?] at h
      injection h with h
      subst h
      simp only [List.set, List.countP_cons]
      by_cases h1 : p a <;> by_cases h2 : p v <;> simp [h1, h2]
    | succ j =>
      simp only [List.get?] at h
      have hj := ih j h
      simp only [List.set, List.countP_cons]
      by_cases h1 : p a <;> simp [h1] <;> omega

theorem semStep_invariant {s s2 : SemState} (h : SemStep s s2)
    (hi : holdersCount s + s.avail = 3) :
    holdersCount s2 + s2.avail = 3 := by
  cases h with
  | acquire i hg ha =>
    have hc := countP_set_of_get
      (fun p => p == .inFlight || p == .pacing) s.tasks i .inFlight _ hg
    unfold holdersCount at *
    simp only [show ((TaskPhase.notStarted == TaskPhase.inFlight ||
        TaskPhase.notStarted == TaskPhase.pacing) = false) from rfl,
      show ((TaskPhase.inFlight == TaskPhase.inFlight ||
        TaskPhase.inFlight == TaskPhase.pacing) = true) from rfl,
      if_true, Bool.false_eq_true, if_false] at hc
    show (s.tasks.set i .inFlight).countP
        (fun p => p == .inFlight || p == .pacing) + (s.avail - 1) = 3
    omega
  | finish i hg =>
    have hc := countP_set_of_get
      (fun p => p == .inFlight || p == .pacing) s.tasks i .pacing _ hg
    unfold holdersCount at *
    simp only [show ((TaskPhase.inFlight == TaskPhase.inFlight ||
        TaskPhase.inFlight == TaskPhase.pacing) = true) from rfl,
      show ((TaskPhase.pacing == TaskPhase.inFlight ||
        TaskPhase.pacing == TaskPhase.pacing) = true) from rfl,
      if_true] at hc
    show (s.tasks.set i .pacing).countP
        (fun p => p == .inFlight || p == .pacing) + s.avail = 3
    omega
  | release i hg =>
    have hc := countP_set_of_get
      (fun p => p == .inFlight || p == .pacing) s.tasks i .taskDone _ hg
    unfold holdersCount at *
    simp only [show ((TaskPhase.pacing == TaskPhase.inFlight ||
        TaskPhase.pacing == TaskPhase.pacing) = true) from rfl,
      show ((TaskPhase.taskDone == TaskPhase.inFlight ||
        TaskPhase.taskDone == TaskPhase.pacing) = false) from rfl,
      if_true, Bool.false_eq_true, if_false] at hc
    show (s.tasks.set i .taskDone).countP
        (fun p => p == .inFlight || p == .pacing) + (s.avail + 1) = 3
    omega

theorem semReachable_invariant {n : Nat} {s : SemState}
    (h : SemReachable n s) : holdersCount s + s.avail = 3 := by
  induction h with
  | refl =>
    have hz : holdersCount (semInit n) = 0 := by
      rw [holdersCount, List.countP_eq_zero]
      intro a ha
      rw [(List.mem_replicate.mp ha).2]
      decide
    rw [hz]
    rfl
  | tail _ hstep ih => exact semStep_invariant hstep ih

/-- C10: in every state the scheduler of `batch_toggle_visibility` can
reach, at most 3 per-repository operations are in flight — admission is
gated by the 3-slot semaphore, whose slot count plus held slots is
conserved — and the only step that frees a slot is the completion of a task
in its pacing phase, i.e. the fixed pacing delay is honoured after the
operation (success or failure) before the slot is released. -/
theorem semaphore_bounds_in_flight (n : Nat) (s : SemState)
    (h : SemReachable n s) :
    inFlightCount s ≤ 3 ∧
    holdersCount s + s.avail = 3 ∧
    (∀ s2, SemStep s s2 → s.avail < s2.avail →
      ∃ i, s.tasks.get? i = some .pacing ∧
        s2.tasks = s.tasks.set i .taskDone) := by
  have hi := semReachable_invariant h
  refine ⟨?_, hi, ?_⟩
  · have hle : inFlightCount s ≤ holdersCount s := by
      unfold inFlightCount holdersCount
      apply List.countP_mono_left
      intro x _ hx
      simp [hx]
    omega
  · intro s2 hstep hav
    cases hstep with
    | acquire i hg ha =>
      have hr : ((⟨s.avail - 1, s.tasks.set i .inFlight⟩ :
          SemState)).avail = s.avail - 1 := rfl
      rw [hr] at hav
      omega
    | finish i hg =>
      have hr : ((⟨s.avail, s.tasks.set i .pacing⟩ :
          SemState)).avail = s.avail := rfl
      rw [hr] at hav
      omega
    | release i hg => exact ⟨i, hg, rfl⟩

/-- C10 witness: the bound applied to the initial state of a five-task
batch, which is trivially reachable. -/
theorem semaphore_bounds_in_flight_witness :
    inFlightCount (semInit 5) ≤ 3 ∧
    holdersCount (semInit 5) + (semInit 5).avail = 3 :=
  ⟨(semaphore_bounds_in_flight 5 (semInit 5) Relation.ReflTransGen.refl).1,
   (semaphore_bounds_in_flight 5 (semInit 5) Relation.ReflTransGen.refl).2.1⟩

end GithubApiBot
